import Mathlib

/-!
Shallow embedding of `subsystems/ntvdm/emulator.c` (ReactOS Virtual DOS Machine,
minimal x86 machine emulator): the memory access arbiter (`EmulatorReadMemory`,
`EmulatorWriteMemory`), the A20 gate (`EmulatorSetA20`), the run flag, the
exception/halt path (`EmulatorException`), stepping (`EmulatorStep`) and
initialization (`EmulatorInitialize`).

Machine integers: `Address` and `Size` are C `ULONG`/`DWORD` (32-bit) values;
every place where the C code can wrap is embedded as explicit `% U32`
arithmetic on `Nat`.  Host pointer arithmetic (`(ULONG_PTR)BaseAddress + i`)
is 64-bit and does not wrap for the offsets involved, so byte stores live in a
total map `Nat → Nat` ("host memory measured from `BaseAddress`"); the guest
arena is the slice `[0, MAX_ADDRESS)` of that map.

External collaborators that are not part of this source tree (the `emulator.h`
constants, the VGA device of `hardware/vga.c`, the fast486 CPU engine) are
modelled from the design document; each such definition carries a comment
starting with `Modelled from the spec:`.
-/

namespace Ntvdm

/-- Modelled from the spec: `MAX_ADDRESS` comes from `emulator.h`, which is not
in this tree; the guest address space is 1 MiB (`0x100000`). -/
abbrev MAX_ADDRESS : Nat := 0x100000

/-- Modelled from the spec: `ROM_AREA_START` from `emulator.h`; the read-only
firmware region is `[0xF0000, 0x100000)`. -/
abbrev ROM_AREA_START : Nat := 0xF0000

/-- Modelled from the spec: `ROM_AREA_END` from `emulator.h`. -/
abbrev ROM_AREA_END : Nat := 0x100000

/-- The modulus of C `ULONG`/`DWORD` arithmetic. -/
abbrev U32 : Nat := 0x100000000

/-- The C expression `~(1 << 20)` truncated to `ULONG`: all 32 bits set except
bit 20. -/
abbrev A20_MASK : Nat := 0xFFEFFFFF

/-- Modelled from the spec: the video device's own memory store together with
the region it maps.  `base` is `VgaGetVideoBaseAddress()`; `limitAddr` is
`VgaGetVideoLimitAddress()`, the address of the *last* byte of the region (the
arbiter computes the intersection as `min(Address + Size - 1, limit)`, and the
spec's scenario — 2 bytes forwarded for `write(0xB7FFE, 4)` against region
`[0xA0000, 0xB8000)` — pins the limit as inclusive). -/
structure VgaState where
  store : Nat → Nat
  base : Nat
  limitAddr : Nat

/-- The emulator's process-wide state in `emulator.c`: the arena pointed to by
`BaseAddress` (as host memory measured from that pointer), the `A20Line`
flag, the `VdmRunning` flag, and the external VGA device state reachable
through the `Vga*` entry points. -/
structure EmuState where
  mem : Nat → Nat
  a20Line : Bool
  vdmRunning : Bool
  vga : VgaState

/-- A record of one invocation of a VGA device entry point, with the address
and length it was handed. -/
inductive VgaCall where
  | read (addr size : Nat) : VgaCall
  | write (addr size : Nat) : VgaCall
deriving DecidableEq

/-- Modelled from the spec: `VgaReadMemory(VgaAddress, DestBuffer, ActualSize)`
where `DestBuffer` points into the arena at offset `VgaAddress` — the device
copies its own state into the arena positions it maps. -/
def VgaReadMemory (s : EmuState) (addr size : Nat) : EmuState :=
  { s with mem := fun i => if addr ≤ i ∧ i < addr + size then s.vga.store i else s.mem i }

/-- Modelled from the spec: `VgaWriteMemory(VgaAddress, SrcBuffer, ActualSize)`
where `SrcBuffer` points into the arena at offset `VgaAddress` — the device
mirrors those arena bytes into its own store. -/
def VgaWriteMemory (s : EmuState) (addr size : Nat) : EmuState :=
  { s with vga := { s.vga with
      store := fun i => if addr ≤ i ∧ i < addr + size then s.mem i else s.vga.store i } }

/-- The A20 step shared by both arbiter entry points:
`if (!A20Line) Address &= ~(1 << 20);`. -/
def maskedAddress (a20Line : Bool) (Address : Nat) : Nat :=
  if !a20Line then Address &&& A20_MASK else Address

/-- `RtlCopyMemory((LPVOID)((ULONG_PTR)BaseAddress + Address), Buffer, Size)`:
store `Size` payload bytes into host memory at offset `Address`. -/
def genericWrite (s : EmuState) (Address : Nat) (Buffer : Nat → Nat) (Size : Nat) : EmuState :=
  { s with mem := fun i =>
      if Address ≤ i ∧ i < Address + Size then Buffer (i - Address) else s.mem i }

/-- `RtlCopyMemory(Buffer, (LPVOID)((ULONG_PTR)BaseAddress + Address), Size)`:
fill the caller's buffer from host memory at offset `Address`. -/
def genericRead (s : EmuState) (Address : Nat) (Buffer : Nat → Nat) (Size : Nat) : Nat → Nat :=
  fun i => if i < Size then s.mem (Address + i) else Buffer i

/-- Body of `EmulatorReadMemory` after the A20 masking of `Address`.  Returns
the post-state, the caller's buffer after the call, and the list of VGA entry
points invoked.  The VGA region test and the clipped sub-range are the source's
`((Address + Size) >= VgaGetVideoBaseAddress()) && (Address < VgaGetVideoLimitAddress())`,
`VgaAddress = max(Address, base)` and
`ActualSize = min(Address + Size - 1, limit) - VgaAddress + 1` in DWORD
arithmetic (the region getters are pure, so evaluating them before or after
the copy is immaterial). -/
def EmulatorReadMemoryMasked (s : EmuState) (Address : Nat) (Buffer : Nat → Nat) (Size : Nat) :
    EmuState × (Nat → Nat) × List VgaCall :=
  if (Address + Size) % U32 ≥ MAX_ADDRESS then (s, Buffer, [])
  else if (Address + Size) % U32 ≥ s.vga.base ∧ Address < s.vga.limitAddr then
    (VgaReadMemory s (max Address s.vga.base)
        ((min ((Address + Size + (U32 - 1)) % U32) s.vga.limitAddr
            + (U32 - max Address s.vga.base) + 1) % U32),
     genericRead
        (VgaReadMemory s (max Address s.vga.base)
          ((min ((Address + Size + (U32 - 1)) % U32) s.vga.limitAddr
              + (U32 - max Address s.vga.base) + 1) % U32))
        Address Buffer Size,
     [VgaCall.read (max Address s.vga.base)
        ((min ((Address + Size + (U32 - 1)) % U32) s.vga.limitAddr
            + (U32 - max Address s.vga.base) + 1) % U32)])
  else (s, genericRead s Address Buffer Size, [])

/-- `EmulatorReadMemory(State, Address, Buffer, Size)` from `emulator.c`. -/
def EmulatorReadMemory (s : EmuState) (Address : Nat) (Buffer : Nat → Nat) (Size : Nat) :
    EmuState × (Nat → Nat) × List VgaCall :=
  EmulatorReadMemoryMasked s (maskedAddress s.a20Line Address) Buffer Size

/-- Body of `EmulatorWriteMemory` after the A20 masking of `Address`: bounds
test, ROM-area test `((Address + Size) >= ROM_AREA_START && (Address < ROM_AREA_END))`,
generic transfer into the arena, then the VGA forward of the clipped
sub-range. -/
def EmulatorWriteMemoryMasked (s : EmuState) (Address : Nat) (Buffer : Nat → Nat) (Size : Nat) :
    EmuState × List VgaCall :=
  if (Address + Size) % U32 ≥ MAX_ADDRESS then (s, [])
  else if (Address + Size) % U32 ≥ ROM_AREA_START ∧ Address < ROM_AREA_END then (s, [])
  else if (Address + Size) % U32 ≥ s.vga.base ∧ Address < s.vga.limitAddr then
    (VgaWriteMemory (genericWrite s Address Buffer Size) (max Address s.vga.base)
        ((min ((Address + Size + (U32 - 1)) % U32) s.vga.limitAddr
            + (U32 - max Address s.vga.base) + 1) % U32),
     [VgaCall.write (max Address s.vga.base)
        ((min ((Address + Size + (U32 - 1)) % U32) s.vga.limitAddr
            + (U32 - max Address s.vga.base) + 1) % U32)])
  else (genericWrite s Address Buffer Size, [])

/-- `EmulatorWriteMemory(State, Address, Buffer, Size)` from `emulator.c`. -/
def EmulatorWriteMemory (s : EmuState) (Address : Nat) (Buffer : Nat → Nat) (Size : Nat) :
    EmuState × List VgaCall :=
  EmulatorWriteMemoryMasked s (maskedAddress s.a20Line Address) Buffer Size

/-- `EmulatorSetA20(Enabled)`: `A20Line = Enabled;`. -/
def EmulatorSetA20 (s : EmuState) (Enabled : Bool) : EmuState :=
  { s with a20Line := Enabled }

/-- `VDDTerminateVDM()`: `VdmRunning = FALSE;`. -/
def VDDTerminateVDM (s : EmuState) : EmuState :=
  { s with vdmRunning := false }

/-- Fallback for an out-of-range `ExceptionName` lookup (unreachable behind the
`ExceptionNumber < 8` contract). -/
def defaultName : String := "?"

/-- The `ExceptionName` table of `emulator.c`. -/
def ExceptionName : List String :=
  [ "Division By Zero", "Debug", "Unexpected Error", "Breakpoint",
    "Integer Overflow", "Bound Range Exceeded", "Invalid Opcode",
    "FPU Not Available" ]

/-- Modelled from the spec: `STACK_IP` from `emulator.h` — the word index of
the saved instruction pointer in the fault stack frame. -/
abbrev STACK_IP : Nat := 0

/-- Modelled from the spec: `STACK_CS` from `emulator.h` — the word index of
the saved code segment in the fault stack frame. -/
abbrev STACK_CS : Nat := 1

/-- Modelled from the spec: `SEG_OFF_TO_PTR` from `emulator.h` resolves a
real-mode `segment:offset` pair to the absolute byte address `seg * 16 + off`
inside the arena. -/
def SEG_OFF_TO_LINEAR (seg off : Nat) : Nat := seg * 16 + off

/-- The 10 raw opcode bytes `Opcode[0] .. Opcode[9]` that
`EmulatorException` reads from the fault site. -/
def opcodeBytes (s : EmuState) (cs ip : Nat) : List Nat :=
  (List.range 10).map fun i => s.mem (SEG_OFF_TO_LINEAR cs ip + i)

/-- The diagnostic record surfaced through `DisplayMessage`: the exception
name, the faulting `segment:offset` pair, and the 10 opcode bytes. -/
structure ExceptionReport where
  name : String
  codeSegment : Nat
  instructionPointer : Nat
  opcodes : List Nat

/-- Outcome of `EmulatorException`: either the `ASSERT(ExceptionNumber < 8)`
contract check trips (checked/debug build), or a report is surfaced and the
machine state is updated. -/
inductive ExceptionOutcome where
  | assertionFailure : ExceptionOutcome
  | reported (r : ExceptionReport) (s : EmuState) : ExceptionOutcome

/-- Post-state carried by an `ExceptionOutcome`, if any. -/
def exceptionOutcomeState : ExceptionOutcome → Option EmuState
  | ExceptionOutcome.assertionFailure => none
  | ExceptionOutcome.reported _ t => some t

/-- Report carried by an `ExceptionOutcome`, if any. -/
def exceptionOutcomeReport : ExceptionOutcome → Option ExceptionReport
  | ExceptionOutcome.assertionFailure => none
  | ExceptionOutcome.reported r _ => some r

/-- `EmulatorException(ExceptionNumber, Stack)` from `emulator.c`: assert the
`[0, 8)` contract, read `CS:IP` from the stack frame, read 10 opcode bytes
from the fault site, surface the report, and clear `VdmRunning`. -/
def EmulatorException (s : EmuState) (ExceptionNumber : Nat) (Stack : Nat → Nat) :
    ExceptionOutcome :=
  if ExceptionNumber ≥ 8 then ExceptionOutcome.assertionFailure
  else
    ExceptionOutcome.reported
      { name := ExceptionName.getD ExceptionNumber defaultName
        codeSegment := Stack STACK_CS
        instructionPointer := Stack STACK_IP
        opcodes := opcodeBytes s (Stack STACK_CS) (Stack STACK_IP) }
      { s with vdmRunning := false }

/-- `EmulatorStep()` from `emulator.c`: it invokes `Fast486StepInto`
unconditionally — there is no check of `VdmRunning`.  Modelled from the spec:
the fast486 engine is external, so its single-instruction entry point is an
arbitrary state transformer; the second component counts how many guest
instructions the engine was asked to execute by this call. -/
def EmulatorStep (Fast486StepInto : EmuState → EmuState) (s : EmuState) : EmuState × Nat :=
  (Fast486StepInto s, 1)

/-- `EmulatorInitialize(ConsoleInput, ConsoleOutput)` from `emulator.c`:
`HeapAlloc(GetProcessHeap(), HEAP_ZERO_MEMORY, MAX_ADDRESS)` either fails
(`allocOk = false`, function returns `FALSE` immediately) or yields a
zero-filled arena; every further step (CPU construction, `setIF(1)`, PIC/
PIT/CMOS/speaker/PS2/VGA/BOP/VDD setup) is an external call whose result is
ignored, so nothing after the allocation can fail.  `hostMem` is the host
heap contents beyond the arena; `vga0` is the device state `VgaInitialize`
leaves behind.  The initial flags are the file-scope initializers
`VdmRunning = TRUE` and `A20Line = FALSE`. -/
def EmulatorInitialize (hostMem : Nat → Nat) (vga0 : VgaState) (allocOk : Bool) :
    Option EmuState :=
  if allocOk then
    some { mem := fun i => if i < MAX_ADDRESS then 0 else hostMem i
           a20Line := false
           vdmRunning := true
           vga := vga0 }
  else none

/-! ### Concrete fixtures used by witnesses and counterexamples -/

/-- The spec's concrete scenario for the video device: region
`[0xA0000, 0xB8000)`, i.e. base `0xA0000` and last byte `0xB7FFF`, with a
recognizable device store. -/
def vgaScenario : VgaState :=
  { store := fun _ => 0xAA, base := 0xA0000, limitAddr := 0xB7FFF }

/-- A concrete running machine: zeroed arena, A20 clear, running. -/
def s0 : EmuState :=
  { mem := fun _ => 0, a20Line := false, vdmRunning := true, vga := vgaScenario }

/-- `s0` after a halt. -/
def sHalt : EmuState := { s0 with vdmRunning := false }

/-- A payload buffer holding byte `1` everywhere. -/
def oneBuf : Nat → Nat := fun _ => 1

/-- An all-zero buffer. -/
def zeroBuf : Nat → Nat := fun _ => 0

/-- A payload buffer holding bytes `1, 2, 3, 4, ...`. -/
def payload4 : Nat → Nat := fun i => i + 1

/-- A concrete CPU engine transition that visibly mutates the arena. -/
def bumpEngine : EmuState → EmuState :=
  fun s => { s with mem := fun i => s.mem i + 1 }

/-- A concrete fault stack frame: `CS = 0x1234`, other words `0x10`. -/
def stk0 : Nat → Nat := fun w => if w = STACK_CS then 0x1234 else 0x10

/-- Concrete host-heap contents beyond the arena. -/
def hostMem0 : Nat → Nat := fun _ => 0x5A

/-- The machine state `EmulatorInitialize hostMem0 vgaScenario true` builds. -/
def sInit : EmuState :=
  { mem := fun i => if i < MAX_ADDRESS then 0 else hostMem0 i
    a20Line := false
    vdmRunning := true
    vga := vgaScenario }

/-! ### Helper lemmas -/

lemma testBit_A20_MASK {i : Nat} (h : i < 20) : Nat.testBit A20_MASK i = true := by
  interval_cases i <;> decide

lemma lor_pow20_mask (a : Nat) : (a ||| 2 ^ 20) &&& A20_MASK = a &&& A20_MASK := by
  apply Nat.eq_of_testBit_eq
  intro i
  have hM : Nat.testBit A20_MASK 20 = false := by decide
  rcases eq_or_ne i 20 with h | h
  · subst h
    simp [Nat.testBit_land, hM]
  · simp [Nat.testBit_land, Nat.testBit_lor, Nat.testBit_two_pow_of_ne (Ne.symm h)]

lemma mask_small {a : Nat} (h : a < 2 ^ 21) : a &&& A20_MASK = a % 2 ^ 20 := by
  apply Nat.eq_of_testBit_eq
  intro i
  rw [Nat.testBit_land, Nat.testBit_mod_two_pow]
  rcases lt_trichotomy i 20 with hi | hi | hi
  · rw [testBit_A20_MASK hi]
    simp [hi]
  · subst hi
    have hM : Nat.testBit A20_MASK 20 = false := by decide
    simp [hM]
  · have h1 : Nat.testBit a i = false :=
      Nat.testBit_lt_two_pow (lt_of_lt_of_le h (Nat.pow_le_pow_right (by norm_num) hi))
    simp [h1]

lemma read_a20 (s : EmuState) (A : Nat) (buf : Nat → Nat) (S : Nat) :
    (EmulatorReadMemory s A buf S).1.a20Line = s.a20Line := by
  unfold EmulatorReadMemory EmulatorReadMemoryMasked
  split_ifs <;> rfl

lemma read_run (s : EmuState) (A : Nat) (buf : Nat → Nat) (S : Nat) :
    (EmulatorReadMemory s A buf S).1.vdmRunning = s.vdmRunning := by
  unfold EmulatorReadMemory EmulatorReadMemoryMasked
  split_ifs <;> rfl

lemma write_a20 (s : EmuState) (A : Nat) (buf : Nat → Nat) (S : Nat) :
    (EmulatorWriteMemory s A buf S).1.a20Line = s.a20Line := by
  unfold EmulatorWriteMemory EmulatorWriteMemoryMasked
  split_ifs <;> rfl

lemma write_run (s : EmuState) (A : Nat) (buf : Nat → Nat) (S : Nat) :
    (EmulatorWriteMemory s A buf S).1.vdmRunning = s.vdmRunning := by
  unfold EmulatorWriteMemory EmulatorWriteMemoryMasked
  split_ifs <;> rfl

/-! ### C1 — bounds containment -/

/-- C1 (amended): if, after the A20 masking step, the 32-bit (`% 2^32`) sum of
masked address and length is at or beyond `MAX_ADDRESS`, then both `read` and
`write` are silently dropped: the machine state (arena included) is unchanged,
the caller's buffer is unchanged, and no device entry point is invoked.  The
claim as frozen — quantifying over the unmasked address with the exact
mathematical sum — fails, because the A20 wraparound is applied first; see
`c1_counterexample`. -/
theorem c1_bounds_drop (s : EmuState) (A : Nat) (buf : Nat → Nat) (S : Nat)
    (h : (maskedAddress s.a20Line A + S) % U32 ≥ MAX_ADDRESS) :
    EmulatorReadMemory s A buf S = (s, buf, []) ∧
    EmulatorWriteMemory s A buf S = (s, []) := by
  unfold EmulatorReadMemory EmulatorWriteMemory EmulatorReadMemoryMasked EmulatorWriteMemoryMasked
  rw [if_pos h, if_pos h]
  exact ⟨rfl, rfl⟩

/-- Witness for `c1_bounds_drop`: the access at `0xFFFFF` of length 1 has
masked 32-bit sum `0x100000 ≥ MAX_ADDRESS` and is dropped. -/
theorem c1_bounds_drop_witness :
    EmulatorReadMemory s0 0xFFFFF oneBuf 1 = (s0, oneBuf, []) ∧
    EmulatorWriteMemory s0 0xFFFFF oneBuf 1 = (s0, []) :=
  c1_bounds_drop s0 0xFFFFF oneBuf 1 (by decide)

/-- C1 counterexample: with the A20 gate clear (the initial state), the call
`write(0x100000, 1)` has exact mathematical `address + length = 0x100001`,
at or beyond `MAX_ADDRESS`, yet it is not silently dropped: bit 20 is masked
off first, the store wraps to address `0`, and arena byte `0` changes from
`0` to the payload byte `1`. -/
theorem c1_counterexample :
    0x100000 + 1 ≥ MAX_ADDRESS ∧
    s0.a20Line = false ∧
    s0.mem 0 = 0 ∧
    (EmulatorWriteMemory s0 0x100000 oneBuf 1).1.mem 0 = 1 :=
  ⟨by decide, rfl, rfl, by decide⟩

/-! ### C2 — read-only (ROM) enforcement -/

/-- C2 (amended): for an in-bounds write (masked address plus length below
`MAX_ADDRESS`), the ROM guard drops the write entirely — state unchanged, no
device call — exactly when the masked exclusive end `address + length`
reaches `ROM_AREA_START` or beyond; when the end stays strictly below
`ROM_AREA_START` the payload bytes are all stored and every other host byte
is untouched.  In particular every write intersecting the ROM region is
dropped regardless of payload, but a write that merely ends at `0xF0000`
without touching the region is dropped too (see `c2_counterexample`). -/
theorem c2_rom_guard (s : EmuState) (A : Nat) (buf : Nat → Nat) (S A' : Nat)
    (hmask : maskedAddress s.a20Line A = A')
    (hin : A' + S < MAX_ADDRESS) :
    (A' + S ≥ ROM_AREA_START → EmulatorWriteMemory s A buf S = (s, [])) ∧
    (A' + S < ROM_AREA_START →
      (∀ i, i < S → (EmulatorWriteMemory s A buf S).1.mem (A' + i) = buf i) ∧
      (∀ j, j < A' ∨ A' + S ≤ j → (EmulatorWriteMemory s A buf S).1.mem j = s.mem j)) := by
  unfold EmulatorWriteMemory
  rw [hmask]
  unfold EmulatorWriteMemoryMasked
  simp only [MAX_ADDRESS, ROM_AREA_START, ROM_AREA_END, U32] at hin ⊢
  have hU : (A' + S) % 4294967296 = A' + S := Nat.mod_eq_of_lt (by omega)
  rw [hU]
  constructor
  · intro hge
    rw [if_neg (by omega), if_pos ⟨hge, by omega⟩]
  · intro hlt
    rw [if_neg (by omega), if_neg (by rintro ⟨h1, h2⟩; omega)]
    constructor
    · intro i hi
      split_ifs with hv <;>
        simp only [VgaWriteMemory, genericWrite] <;>
        · rw [if_pos ⟨by omega, by omega⟩]
          congr 1
          omega
    · intro j hj
      split_ifs with hv <;>
        simp only [VgaWriteMemory, genericWrite] <;>
        · rw [if_neg (by rintro ⟨h1, h2⟩; omega)]

/-- Witness for `c2_rom_guard`: `write(0xF0000, 16)` (inside ROM) is dropped;
`write(0x500, 2)` stores its payload and leaves byte `0x4FF` alone. -/
theorem c2_rom_guard_witness :
    EmulatorWriteMemory s0 0xF0000 oneBuf 16 = (s0, []) ∧
    (EmulatorWriteMemory s0 0x500 payload4 2).1.mem (0x500 + 0) = payload4 0 ∧
    (EmulatorWriteMemory s0 0x500 payload4 2).1.mem 0x4FF = s0.mem 0x4FF := by
  have h1 := c2_rom_guard s0 0xF0000 oneBuf 16 0xF0000 (by decide) (by decide)
  have h2 := c2_rom_guard s0 0x500 payload4 2 0x500 (by decide) (by decide)
  exact ⟨h1.1 (by decide), (h2.2 (by decide)).1 0 (by decide),
    (h2.2 (by decide)).2 0x4FF (Or.inl (by decide))⟩

/-- C2 counterexample: the one-byte write at `0xEFFFF` has its whole range
`{0xEFFFF}` entirely outside the ROM region `[0xF0000, 0x100000)` and is in
bounds, yet the guard compares the exclusive end with `>=`
(`0xEFFFF + 1 >= ROM_AREA_START`) and drops it: the payload byte `1` is not
stored, arena byte `0xEFFFF` stays `0`. -/
theorem c2_counterexample :
    0xEFFFF + 1 ≤ ROM_AREA_START ∧
    0xEFFFF + 1 < MAX_ADDRESS ∧
    maskedAddress s0.a20Line 0xEFFFF = 0xEFFFF ∧
    oneBuf 0 = 1 ∧
    (EmulatorWriteMemory s0 0xEFFFF oneBuf 1).1.mem 0xEFFFF = 0 :=
  ⟨by decide, by decide, by decide, rfl, by decide⟩

/-! ### C3 — fault finality -/

/-- C3 (amended): after any `EmulatorException` call with a fault number in
`[0, 8)` the run flag is cleared, and no operation of this core (memory read
or write, A20 control, VDM termination) ever sets a cleared run flag back:
`Halted` is never left.  However, `EmulatorStep` itself is not guarded: it
unconditionally hands the state to the CPU engine's single-instruction entry
point even when the flag is already clear — the no-op-after-halt behaviour
the claim asserts does not hold (see `c3_counterexample`); per the design it
is the caller's run loop that must poll the flag between steps. -/
theorem c3_halt_final (s : EmuState) (n : Nat) (stk : Nat → Nat)
    (eng : EmuState → EmuState) (A : Nat) (buf : Nat → Nat) (S : Nat) (e : Bool)
    (hn : n < 8) :
    Option.map EmuState.vdmRunning (exceptionOutcomeState (EmulatorException s n stk))
      = some false ∧
    (s.vdmRunning = false →
      (EmulatorReadMemory s A buf S).1.vdmRunning = false ∧
      (EmulatorWriteMemory s A buf S).1.vdmRunning = false ∧
      (EmulatorSetA20 s e).vdmRunning = false ∧
      (VDDTerminateVDM s).vdmRunning = false) ∧
    EmulatorStep eng s = (eng s, 1) := by
  refine ⟨?_, fun hrun => ⟨?_, ?_, hrun, rfl⟩, rfl⟩
  · unfold EmulatorException
    rw [if_neg (by omega)]
    rfl
  · rw [read_run]; exact hrun
  · rw [write_run]; exact hrun

/-- Witness for `c3_halt_final` on a concrete halted machine. -/
theorem c3_halt_final_witness :
    Option.map EmuState.vdmRunning (exceptionOutcomeState (EmulatorException sHalt 0 stk0))
      = some false ∧
    (EmulatorReadMemory sHalt 0x500 zeroBuf 1).1.vdmRunning = false ∧
    EmulatorStep bumpEngine sHalt = (bumpEngine sHalt, 1) := by
  have h := c3_halt_final sHalt 0 stk0 bumpEngine 0x500 zeroBuf 1 false (by decide)
  exact ⟨h.1, (h.2.1 rfl).1, h.2.2⟩

/-- C3 counterexample: on a halted machine (`vdmRunning = false`), a `step()`
call is not a no-op — `Fast486StepInto` is invoked (one further guest
instruction, second component `1`) and the engine's transition is applied
(arena byte `0` changes from `0` to `1`). -/
theorem c3_counterexample :
    sHalt.vdmRunning = false ∧
    (EmulatorStep bumpEngine sHalt).2 = 1 ∧
    (EmulatorStep bumpEngine sHalt).1.mem 0 = 1 ∧
    sHalt.mem 0 = 0 :=
  ⟨rfl, rfl, by decide, rfl⟩

/-! ### C5 — concrete boundary scenario -/

/-- C5: with `MAX_ADDRESS = 0x100000`, A20 clear, video region
`[0xA0000, 0xB8000)` and ROM `[0xF0000, 0x100000)`: `write(0xB7FFE, 4)`
stores all four payload bytes in the arena, forwards exactly the two-byte
intersection (address `0xB7FFE`, length 2) to the device's write entry point
(the device store picks up exactly bytes `0xB7FFE`–`0xB7FFF`, not `0xB8000`),
and a subsequent `write(0xF0000, 16)` changes nothing at all. -/
theorem c5_scenario :
    (EmulatorWriteMemory s0 0xB7FFE payload4 4).1.mem 0xB7FFE = payload4 0 ∧
    (EmulatorWriteMemory s0 0xB7FFE payload4 4).1.mem 0xB7FFF = payload4 1 ∧
    (EmulatorWriteMemory s0 0xB7FFE payload4 4).1.mem 0xB8000 = payload4 2 ∧
    (EmulatorWriteMemory s0 0xB7FFE payload4 4).1.mem 0xB8001 = payload4 3 ∧
    (EmulatorWriteMemory s0 0xB7FFE payload4 4).2 = [VgaCall.write 0xB7FFE 2] ∧
    (EmulatorWriteMemory s0 0xB7FFE payload4 4).1.vga.store 0xB7FFE = payload4 0 ∧
    (EmulatorWriteMemory s0 0xB7FFE payload4 4).1.vga.store 0xB7FFF = payload4 1 ∧
    (EmulatorWriteMemory s0 0xB7FFE payload4 4).1.vga.store 0xB8000 = 0xAA ∧
    EmulatorWriteMemory (EmulatorWriteMemory s0 0xB7FFE payload4 4).1 0xF0000 oneBuf 16
      = ((EmulatorWriteMemory s0 0xB7FFE payload4 4).1, []) :=
  ⟨by decide, by decide, by decide, by decide, by decide, by decide, by decide, by decide, rfl⟩

/-! ### C9 — frame conditions of the memory and A20 operations -/

/-- C9: no memory read or write changes the A20 gate or the run flag, and
`EmulatorSetA20` sets the gate to exactly the given value while changing
nothing else — not one arena byte, not the run flag, not the device state. -/
theorem c9_frame (s : EmuState) (e : Bool) (A : Nat) (buf : Nat → Nat) (S : Nat) :
    (EmulatorSetA20 s e).a20Line = e ∧
    (EmulatorSetA20 s e).mem = s.mem ∧
    (EmulatorSetA20 s e).vdmRunning = s.vdmRunning ∧
    (EmulatorSetA20 s e).vga = s.vga ∧
    (EmulatorReadMemory s A buf S).1.a20Line = s.a20Line ∧
    (EmulatorReadMemory s A buf S).1.vdmRunning = s.vdmRunning ∧
    (EmulatorWriteMemory s A buf S).1.a20Line = s.a20Line ∧
    (EmulatorWriteMemory s A buf S).1.vdmRunning = s.vdmRunning :=
  ⟨rfl, rfl, rfl, rfl, read_a20 s A buf S, read_run s A buf S,
    write_a20 s A buf S, write_run s A buf S⟩

/-! ### C4 — device-backed (video) region mirroring -/

lemma read_masked_vga (s : EmuState) (A : Nat) (buf : Nat → Nat) (S : Nat)
    (hreg : s.vga.base ≤ s.vga.limitAddr) (hlim : s.vga.limitAddr < MAX_ADDRESS)
    (hS : 1 ≤ S) (hin : A + S < MAX_ADDRESS)
    (hov : s.vga.base < A + S) (hedge : A < s.vga.limitAddr) :
    EmulatorReadMemoryMasked s A buf S =
      (VgaReadMemory s (max A s.vga.base)
          (min (A + S - 1) s.vga.limitAddr + 1 - max A s.vga.base),
       genericRead
          (VgaReadMemory s (max A s.vga.base)
            (min (A + S - 1) s.vga.limitAddr + 1 - max A s.vga.base))
          A buf S,
       [VgaCall.read (max A s.vga.base)
          (min (A + S - 1) s.vga.limitAddr + 1 - max A s.vga.base)]) := by
  unfold EmulatorReadMemoryMasked
  simp only [MAX_ADDRESS, U32] at hin hlim ⊢
  have h1 : (A + S) % 4294967296 = A + S := Nat.mod_eq_of_lt (by omega)
  have h2 : (A + S + (4294967296 - 1)) % 4294967296 = A + S - 1 := by omega
  rw [h1, h2]
  have h3 : (min (A + S - 1) s.vga.limitAddr + (4294967296 - max A s.vga.base) + 1) % 4294967296
      = min (A + S - 1) s.vga.limitAddr + 1 - max A s.vga.base := by omega
  rw [h3]
  rw [if_neg (by omega), if_pos ⟨by omega, hedge⟩]

lemma write_masked_vga (s : EmuState) (A : Nat) (buf : Nat → Nat) (S : Nat)
    (hreg : s.vga.base ≤ s.vga.limitAddr) (hlim : s.vga.limitAddr < MAX_ADDRESS)
    (hS : 1 ≤ S) (hin : A + S < MAX_ADDRESS) (hrom : A + S < ROM_AREA_START)
    (hov : s.vga.base < A + S) (hedge : A < s.vga.limitAddr) :
    EmulatorWriteMemoryMasked s A buf S =
      (VgaWriteMemory (genericWrite s A buf S) (max A s.vga.base)
          (min (A + S - 1) s.vga.limitAddr + 1 - max A s.vga.base),
       [VgaCall.write (max A s.vga.base)
          (min (A + S - 1) s.vga.limitAddr + 1 - max A s.vga.base)]) := by
  unfold EmulatorWriteMemoryMasked
  simp only [MAX_ADDRESS, ROM_AREA_START, ROM_AREA_END, U32] at hin hlim hrom ⊢
  have h1 : (A + S) % 4294967296 = A + S := Nat.mod_eq_of_lt (by omega)
  have h2 : (A + S + (4294967296 - 1)) % 4294967296 = A + S - 1 := by omega
  rw [h1, h2]
  have h3 : (min (A + S - 1) s.vga.limitAddr + (4294967296 - max A s.vga.base) + 1) % 4294967296
      = min (A + S - 1) s.vga.limitAddr + 1 - max A s.vga.base := by omega
  rw [h3]
  rw [if_neg (by omega), if_neg (by rintro ⟨hx, hy⟩; omega), if_pos ⟨by omega, hedge⟩]

/-- C4 (amended): for every in-bounds access of positive length whose masked
range `[A, A + S)` overlaps the device-backed video region and whose start
lies strictly below the region's last byte (`A < limit`; the one-byte access
at the region's last byte is missed by the guard `Address < limit`, see
`c4_counterexample`), with `V = max A base` and `L = min (A + S - 1) limit`
the overlap `[V, L]`:
a read first lets the device fill the arena positions of the overlap from its
own store and only then copies the arena to the caller's buffer, so returned
bytes in the overlap are the device's current state and the rest come from
the arena; a write — provided it does not trip the read-only guard
(`A + S < ROM_AREA_START`) — first commits all payload bytes to the arena and
only then forwards exactly the overlap `[V, L]` to the device's write entry
point, so the device's store over the overlap equals the final arena bytes
and is untouched elsewhere; hence writing inside the region and reading the
same range back returns the device's post-write representation. -/
theorem c4_device_mirror (s : EmuState) (A A' : Nat) (buf : Nat → Nat) (S : Nat)
    (hmask : maskedAddress s.a20Line A = A')
    (hreg : s.vga.base ≤ s.vga.limitAddr)
    (hlim : s.vga.limitAddr < MAX_ADDRESS)
    (hS : 1 ≤ S)
    (hin : A' + S < MAX_ADDRESS)
    (hov : s.vga.base < A' + S)
    (hedge : A' < s.vga.limitAddr) :
    (EmulatorReadMemory s A buf S).2.2 =
        [VgaCall.read (max A' s.vga.base)
          (min (A' + S - 1) s.vga.limitAddr + 1 - max A' s.vga.base)] ∧
    (∀ j, j < S → max A' s.vga.base ≤ A' + j →
        A' + j ≤ min (A' + S - 1) s.vga.limitAddr →
        (EmulatorReadMemory s A buf S).2.1 j = s.vga.store (A' + j)) ∧
    (∀ j, j < S →
        (A' + j < max A' s.vga.base ∨ min (A' + S - 1) s.vga.limitAddr < A' + j) →
        (EmulatorReadMemory s A buf S).2.1 j = s.mem (A' + j)) ∧
    (∀ i, max A' s.vga.base ≤ i → i ≤ min (A' + S - 1) s.vga.limitAddr →
        (EmulatorReadMemory s A buf S).1.mem i = s.vga.store i) ∧
    (A' + S < ROM_AREA_START →
      (EmulatorWriteMemory s A buf S).2 =
          [VgaCall.write (max A' s.vga.base)
            (min (A' + S - 1) s.vga.limitAddr + 1 - max A' s.vga.base)] ∧
      (∀ i, i < S → (EmulatorWriteMemory s A buf S).1.mem (A' + i) = buf i) ∧
      (∀ i, max A' s.vga.base ≤ i → i ≤ min (A' + S - 1) s.vga.limitAddr →
          (EmulatorWriteMemory s A buf S).1.vga.store i
            = (EmulatorWriteMemory s A buf S).1.mem i) ∧
      (∀ i, i < max A' s.vga.base ∨ min (A' + S - 1) s.vga.limitAddr < i →
          (EmulatorWriteMemory s A buf S).1.vga.store i = s.vga.store i) ∧
      (∀ j, j < S → max A' s.vga.base ≤ A' + j →
          A' + j ≤ min (A' + S - 1) s.vga.limitAddr →
          (EmulatorReadMemory (EmulatorWriteMemory s A buf S).1 A buf S).2.1 j =
            (EmulatorWriteMemory s A buf S).1.vga.store (A' + j))) := by
  have hVL : max A' s.vga.base ≤ min (A' + S - 1) s.vga.limitAddr := by omega
  have hwrap : EmulatorReadMemory s A buf S = EmulatorReadMemoryMasked s A' buf S := by
    unfold EmulatorReadMemory
    rw [hmask]
  have hwwrap : EmulatorWriteMemory s A buf S = EmulatorWriteMemoryMasked s A' buf S := by
    unfold EmulatorWriteMemory
    rw [hmask]
  have hread := read_masked_vga s A' buf S hreg hlim hS hin hov hedge
  rw [hwrap, hwwrap, hread]
  refine ⟨rfl, ?_, ?_, ?_, fun hrom => ?_⟩
  · intro j hj h1 h2
    simp only [genericRead, VgaReadMemory]
    rw [if_pos hj, if_pos ⟨h1, by omega⟩]
  · intro j hj hd
    simp only [genericRead, VgaReadMemory]
    rw [if_pos hj, if_neg (by rintro ⟨hx, hy⟩; omega)]
  · intro i h1 h2
    simp only [VgaReadMemory]
    rw [if_pos ⟨h1, by omega⟩]
  · have hwrite := write_masked_vga s A' buf S hreg hlim hS hin hrom hov hedge
    rw [hwrite]
    refine ⟨rfl, ?_, ?_, ?_, ?_⟩
    · intro i hi
      simp only [VgaWriteMemory, genericWrite]
      rw [if_pos ⟨by omega, by omega⟩]
      congr 1
      omega
    · intro i h1 h2
      simp only [VgaWriteMemory, genericWrite]
      rw [if_pos ⟨h1, by omega⟩]
    · intro i hd
      simp only [VgaWriteMemory, genericWrite]
      rw [if_neg (by rintro ⟨hx, hy⟩; omega)]
    · intro j hj h1 h2
      have hread1 := read_masked_vga
        (VgaWriteMemory (genericWrite s A' buf S) (max A' s.vga.base)
          (min (A' + S - 1) s.vga.limitAddr + 1 - max A' s.vga.base))
        A' buf S hreg hlim hS hin hov hedge
      have hwrap1 : EmulatorReadMemory
            (VgaWriteMemory (genericWrite s A' buf S) (max A' s.vga.base)
              (min (A' + S - 1) s.vga.limitAddr + 1 - max A' s.vga.base))
            A buf S
          = EmulatorReadMemoryMasked
            (VgaWriteMemory (genericWrite s A' buf S) (max A' s.vga.base)
              (min (A' + S - 1) s.vga.limitAddr + 1 - max A' s.vga.base))
            A' buf S := by
        unfold EmulatorReadMemory
        rw [show maskedAddress
            (VgaWriteMemory (genericWrite s A' buf S) (max A' s.vga.base)
              (min (A' + S - 1) s.vga.limitAddr + 1 - max A' s.vga.base)).a20Line A
            = A' from hmask]
      rw [hwrap1, hread1]
      simp only [genericRead, VgaReadMemory, VgaWriteMemory, genericWrite]
      rw [if_pos hj, if_pos ⟨h1, by omega⟩]

/-- Witness for `c4_device_mirror` at the spec's boundary-spanning scenario
`write(0xB7FFE, 4)` / `read(0xB7FFE, 4)`. -/
theorem c4_device_mirror_witness :
    (EmulatorReadMemory s0 0xB7FFE payload4 4).2.2 = [VgaCall.read 0xB7FFE 2] ∧
    (EmulatorReadMemory s0 0xB7FFE payload4 4).2.1 0 = s0.vga.store (0xB7FFE + 0) ∧
    (EmulatorReadMemory s0 0xB7FFE payload4 4).2.1 2 = s0.mem (0xB7FFE + 2) ∧
    (EmulatorWriteMemory s0 0xB7FFE payload4 4).2 = [VgaCall.write 0xB7FFE 2] ∧
    (EmulatorWriteMemory s0 0xB7FFE payload4 4).1.vga.store 0xB7FFF
      = (EmulatorWriteMemory s0 0xB7FFE payload4 4).1.mem 0xB7FFF ∧
    (EmulatorReadMemory (EmulatorWriteMemory s0 0xB7FFE payload4 4).1 0xB7FFE payload4 4).2.1 1
      = (EmulatorWriteMemory s0 0xB7FFE payload4 4).1.vga.store (0xB7FFE + 1) := by
  have h := c4_device_mirror s0 0xB7FFE 0xB7FFE payload4 4 (by decide) (by decide)
    (by decide) (by decide) (by decide) (by decide) (by decide)
  have hw := h.2.2.2.2 (by decide)
  exact ⟨h.1.trans (by decide), h.2.1 0 (by decide) (by decide) (by decide),
    h.2.2.1 2 (by decide) (Or.inr (by decide)), hw.1.trans (by decide),
    hw.2.2.1 0xB7FFF (by decide) (by decide),
    hw.2.2.2.2 1 (by decide) (by decide) (by decide)⟩

/-- C4 counterexample: the in-bounds one-byte access at `0xB7FFF` — the last
byte of the device-backed region `[0xA0000, 0xB8000)` — overlaps the region,
yet the guard `Address < VgaGetVideoLimitAddress()` (with the inclusive
limit `0xB7FFF`) excludes it: the write stores its payload in the arena but
invokes no device entry point (the device store keeps its old byte `0xAA`),
and the read refreshes nothing from the device either. -/
theorem c4_counterexample :
    s0.vga.base = 0xA0000 ∧
    s0.vga.limitAddr = 0xB7FFF ∧
    maskedAddress s0.a20Line 0xB7FFF = 0xB7FFF ∧
    0xB7FFF + 1 < MAX_ADDRESS ∧
    (EmulatorWriteMemory s0 0xB7FFF oneBuf 1).2 = [] ∧
    (EmulatorWriteMemory s0 0xB7FFF oneBuf 1).1.mem 0xB7FFF = 1 ∧
    (EmulatorWriteMemory s0 0xB7FFF oneBuf 1).1.vga.store 0xB7FFF = 0xAA ∧
    (EmulatorReadMemory s0 0xB7FFF oneBuf 1).2.2 = [] :=
  ⟨rfl, rfl, by decide, by decide, by decide, by decide, by decide, by decide⟩

/-! ### C6 — A20 masking idempotence -/

/-- C6: with the A20 gate clear, the access at `addr ||| 2^20` (bit 20 set)
and the one at `addr` (bit 20 clear, the only differing bit) are the same
access: `Address &= ~(1 << 20)` rewrites both to the same address before any
other processing, on the read path and on the write path alike, so they
touch the same arena bytes, return the same data, and have identical
effects. -/
theorem c6_a20_alias (s : EmuState) (addr : Nat) (buf : Nat → Nat) (n : Nat)
    (ha20 : s.a20Line = false)
    (hbit : Nat.testBit addr 20 = false)
    (hin : (addr &&& A20_MASK) + n < MAX_ADDRESS) :
    EmulatorReadMemory s (addr ||| 2 ^ 20) buf n = EmulatorReadMemory s addr buf n ∧
    EmulatorWriteMemory s (addr ||| 2 ^ 20) buf n = EmulatorWriteMemory s addr buf n := by
  have hm : maskedAddress s.a20Line (addr ||| 2 ^ 20) = maskedAddress s.a20Line addr := by
    rw [ha20]
    show (addr ||| 2 ^ 20) &&& A20_MASK = addr &&& A20_MASK
    exact lor_pow20_mask addr
  unfold EmulatorReadMemory EmulatorWriteMemory
  rw [hm]
  exact ⟨rfl, rfl⟩

/-- Witness for `c6_a20_alias` at `addr = 0x12345`. -/
theorem c6_a20_alias_witness :
    EmulatorReadMemory s0 (0x12345 ||| 2 ^ 20) oneBuf 4 = EmulatorReadMemory s0 0x12345 oneBuf 4 ∧
    EmulatorWriteMemory s0 (0x12345 ||| 2 ^ 20) oneBuf 4 = EmulatorWriteMemory s0 0x12345 oneBuf 4 :=
  c6_a20_alias s0 0x12345 oneBuf 4 rfl (by decide) (by decide)

/-! ### C7 — exception reporting contract -/

/-- C7: for a fault number in `[0, 8)`, `EmulatorException` halts the machine
unconditionally (the post-state is the input state with `vdmRunning` cleared
and nothing else changed) and surfaces a report carrying the fault class's
name from the `ExceptionName` table, the faulting code segment and
instruction pointer read from the supplied stack frame (`Stack[STACK_CS]`,
`Stack[STACK_IP]`), and exactly 10 raw opcode bytes read from the fault site
`CS * 16 + IP`; a fault number at or above 8 trips the debug-build assertion
`ASSERT(ExceptionNumber < 8)` instead of producing any report or state
change. -/
theorem c7_exception_report (s : EmuState) (n : Nat) (stk : Nat → Nat) :
    (n < 8 →
      exceptionOutcomeState (EmulatorException s n stk) = some { s with vdmRunning := false } ∧
      Option.map ExceptionReport.name (exceptionOutcomeReport (EmulatorException s n stk))
        = ExceptionName.get? n ∧
      Option.map ExceptionReport.codeSegment (exceptionOutcomeReport (EmulatorException s n stk))
        = some (stk STACK_CS) ∧
      Option.map ExceptionReport.instructionPointer
          (exceptionOutcomeReport (EmulatorException s n stk))
        = some (stk STACK_IP) ∧
      Option.map ExceptionReport.opcodes (exceptionOutcomeReport (EmulatorException s n stk))
        = some (opcodeBytes s (stk STACK_CS) (stk STACK_IP)) ∧
      (opcodeBytes s (stk STACK_CS) (stk STACK_IP)).length = 10) ∧
    (8 ≤ n → EmulatorException s n stk = ExceptionOutcome.assertionFailure) := by
  constructor
  · intro hn
    unfold EmulatorException
    rw [if_neg (by omega)]
    exact ⟨rfl, by interval_cases n <;> rfl, rfl, rfl, rfl, rfl⟩
  · intro hn
    unfold EmulatorException
    rw [if_pos hn]

/-- Witness for `c7_exception_report` at fault 3 (breakpoint) and at the
contract violation 9. -/
theorem c7_exception_report_witness :
    exceptionOutcomeState (EmulatorException s0 3 stk0) = some { s0 with vdmRunning := false } ∧
    Option.map ExceptionReport.name (exceptionOutcomeReport (EmulatorException s0 3 stk0))
      = ExceptionName.get? 3 ∧
    Option.map ExceptionReport.codeSegment (exceptionOutcomeReport (EmulatorException s0 3 stk0))
      = some (stk0 STACK_CS) ∧
    (opcodeBytes s0 (stk0 STACK_CS) (stk0 STACK_IP)).length = 10 ∧
    EmulatorException s0 9 stk0 = ExceptionOutcome.assertionFailure := by
  have h3 := c7_exception_report s0 3 stk0
  have h9 := c7_exception_report s0 9 stk0
  exact ⟨(h3.1 (by decide)).1, (h3.1 (by decide)).2.1, (h3.1 (by decide)).2.2.1,
    (h3.1 (by decide)).2.2.2.2.2, h9.2 (by decide)⟩

/-! ### C8 — initialization failure mode and zeroed arena -/

/-- C8: `EmulatorInitialize` returns failure exactly when the arena
allocation fails — every later step is an external call whose result the
function ignores, so nothing else can make it fail — and on success the
whole `MAX_ADDRESS`-byte arena is zero-initialized (and the machine is
running). -/
theorem c8_initialize (hostMem : Nat → Nat) (v : VgaState) (allocOk : Bool) :
    (EmulatorInitialize hostMem v allocOk = none ↔ allocOk = false) ∧
    (∀ s, EmulatorInitialize hostMem v allocOk = some s →
      (∀ i, i < MAX_ADDRESS → s.mem i = 0) ∧ s.vdmRunning = true) := by
  cases allocOk with
  | false =>
    exact ⟨by simp [EmulatorInitialize], by simp [EmulatorInitialize]⟩
  | true =>
    refine ⟨by simp [EmulatorInitialize], fun s hs => ?_⟩
    simp only [EmulatorInitialize, if_true, Option.some.injEq] at hs
    subst hs
    exact ⟨fun i hi => by simp [hi], rfl⟩

/-- Witness for `c8_initialize`: failed allocation yields failure; successful
allocation yields a zeroed, running machine. -/
theorem c8_initialize_witness :
    EmulatorInitialize hostMem0 vgaScenario false = none ∧
    sInit.mem 0x7B = 0 ∧
    sInit.vdmRunning = true := by
  have hf := c8_initialize hostMem0 vgaScenario false
  have ht := c8_initialize hostMem0 vgaScenario true
  have hsome : EmulatorInitialize hostMem0 vgaScenario true = some sInit := rfl
  exact ⟨hf.1.mpr rfl, (ht.2 sInit hsome).1 0x7B (by decide), (ht.2 sInit hsome).2⟩

/-! ### C10 — A20 initially clear, 1 MiB wraparound by default -/

/-- C10: the A20 gate is initially clear — `EmulatorInitialize` leaves the
file-scope initializer `A20Line = FALSE` in place — and while it is clear
every memory read and write masks bit 20 of the address first (the call
coincides with the call on `addr &&& ~(1 << 20)`); for addresses below
2 MiB that mask is exactly reduction modulo `0x100000`, so guest addresses
wrap at 1 MiB by default. -/
theorem c10_a20_default (hostMem : Nat → Nat) (v : VgaState) (s : EmuState)
    (A : Nat) (buf : Nat → Nat) (S : Nat) :
    (∀ t, EmulatorInitialize hostMem v true = some t → t.a20Line = false) ∧
    (s.a20Line = false →
      EmulatorReadMemory s A buf S = EmulatorReadMemoryMasked s (A &&& A20_MASK) buf S ∧
      EmulatorWriteMemory s A buf S = EmulatorWriteMemoryMasked s (A &&& A20_MASK) buf S) ∧
    (A < 2 ^ 21 → A &&& A20_MASK = A % 2 ^ 20) := by
  refine ⟨?_, fun h => ?_, fun h => mask_small h⟩
  · intro t ht
    simp only [EmulatorInitialize, if_true, Option.some.injEq] at ht
    subst ht
    rfl
  · unfold EmulatorReadMemory EmulatorWriteMemory maskedAddress
    rw [h]
    exact ⟨rfl, rfl⟩

/-- Witness for `c10_a20_default` on the freshly initialized machine and at
the concrete address `0x123456`. -/
theorem c10_a20_default_witness :
    sInit.a20Line = false ∧
    EmulatorReadMemory s0 0x123456 zeroBuf 4
      = EmulatorReadMemoryMasked s0 (0x123456 &&& A20_MASK) zeroBuf 4 ∧
    0x123456 &&& A20_MASK = 0x123456 % 2 ^ 20 := by
  have h := c10_a20_default hostMem0 vgaScenario s0 0x123456 zeroBuf 4
  exact ⟨h.1 sInit rfl, (h.2.1 rfl).1, h.2.2 (by decide)⟩

end Ntvdm
